import Mathlib

/-!
# MyKey card parser (`plugins/supported_cards/mykey.c`)

A shallow embedding of the MyKey decode pipeline and theorems about it.

Machine words are natural numbers.  A `uint32_t` value is a natural number
below `2 ^ 32`; every operation that can leave that range in C (left shift,
addition, multiplication, complement) is reduced modulo `2 ^ 32` explicitly.
Array reads are `Option`-valued list lookups, and a function that reads an
array returns `none` when an index is out of range.
-/

namespace MyKey

/-! ## Data model -/

/-- Modelled from the spec: the tag-variant enumeration `St25tbType` declared in
the ST25TB protocol header, which is not part of this repository.  The parser
only distinguishes the two variants `St25tbType04k` and `St25tbTypeX4k` from
all the others. -/
inductive St25tbType where
  | St25tbType512At
  | St25tbType512Ac
  | St25tbTypeX512
  | St25tbType02k
  | St25tbType04k
  | St25tbTypeX4k
  deriving DecidableEq, Repr

/-- Modelled from the spec: the record `St25tbData` declared in the ST25TB
protocol header, which is not part of this repository: the tag variant, the
identifier bytes, the 32-bit blocks and the system OTP block. -/
structure St25tbData where
  type : St25tbType
  uid : List Nat
  blocks : List Nat
  system_otp_block : Nat
  deriving DecidableEq, Repr

/-- The invariants the C types give to a `St25tbData` value: eight identifier
bytes, at least 36 blocks, and every field within the range of its type. -/
def St25tbData.WF (data : St25tbData) : Prop :=
  data.uid.length = 8 ∧ (∀ b ∈ data.uid, b < 256) ∧
  36 ≤ data.blocks.length ∧ (∀ b ∈ data.blocks, b < 4294967296) ∧
  data.system_otp_block < 4294967296

instance (data : St25tbData) : Decidable data.WF := by
  unfold St25tbData.WF
  infer_instance

/-! ## Constants (the anonymous `enum` of the source) -/

def MYKEY_BLOCK_KEY_ID : Nat := 0x07
def MYKEY_BLOCK_PRODUCTION_DATE : Nat := 0x08
def MYKEY_BLOCK_VENDOR_ID_1 : Nat := 0x18
def MYKEY_BLOCK_VENDOR_ID_2 : Nat := 0x19
def MYKEY_BLOCK_CURRENT_CREDIT : Nat := 0x21
def MYKEY_BLOCK_PREVIOUS_CREDIT : Nat := 0x23
def MYKEY_DEFAULT_VENDOR_ID : Nat := 0xFEDC0123
def MYKEY_DEFAULT_VENDOR_ID_1 : Nat := 0xFEDC
def MYKEY_DEFAULT_VENDOR_ID_2 : Nat := 0x0123

/-! ## 32-bit primitives -/

/-- Left shift of a `uint32_t`: the bits shifted past bit 31 are lost. -/
def shl32 (x k : Nat) : Nat := (x <<< k) % 4294967296

/-- Bitwise complement `~x` of a `uint32_t`. -/
def not32 (x : Nat) : Nat := 4294967295 - x % 4294967296

/-- Modelled from the spec: the toolchain byte swap `__bswap32`, which is not
part of this repository: it reverses the byte order of a 32-bit word. -/
def bswap32 (x : Nat) : Nat :=
  (x % 256) * 16777216 + (x / 256 % 256) * 65536 + (x / 65536 % 256) * 256 +
    (x / 16777216 % 256)

/-! ## The helper functions of the source -/

/-- Source `get_uid`: `uid[7] | (uid[6] << 8) | (uid[5] << 16) | (uid[4] << 24)`,
converted to `uint32_t`.  The bytes are promoted to `int`; the shifted bytes
occupy disjoint bit ranges and the converted result is their bit pattern. -/
def get_uid (uid : List Nat) : Option Nat := do
  let u7 ← uid[7]?
  let u6 ← uid[6]?
  let u5 ← uid[5]?
  let u4 ← uid[4]?
  pure ((u7 ||| (u6 <<< 8) ||| (u5 <<< 16) ||| (u4 <<< 24)) % 4294967296)

/-- Source `new_get_count_down_counter`:
`~(b6 << 24 | (b6 & 0x0000FF00) << 8 | (b6 & 0x00FF0000) >> 8 | b6 >> 24)`. -/
def new_get_count_down_counter (b6 : Nat) : Nat :=
  not32 (shl32 b6 24 ||| shl32 (b6 &&& 0x0000FF00) 8 ||| ((b6 &&& 0x00FF0000) >>> 8) |||
    (b6 >>> 24))

/-- Source `get_is_bound`: the C truth value of `vendor_id != MYKEY_DEFAULT_VENDOR_ID`. -/
def get_is_bound (vendor_id : Nat) : Nat :=
  if vendor_id ≠ MYKEY_DEFAULT_VENDOR_ID then 1 else 0

/-- Source `get_master_key`: `uid * (vendor_id + 1)` in `uint32_t` arithmetic. -/
def get_master_key (uid vendor_id : Nat) : Nat :=
  (uid * ((vendor_id + 1) % 4294967296)) % 4294967296

/-- Source `get_encryption_key`: `master_key * (count_down_counter + 1)` in
`uint32_t` arithmetic. -/
def get_encryption_key (master_key count_down_counter : Nat) : Nat :=
  (master_key * ((count_down_counter + 1) % 4294967296)) % 4294967296

/-- Source `encode_decode_block`: three self-XOR rounds on the argument. -/
def encode_decode_block (input : Nat) : Nat :=
  let input1 := input ^^^
    (shl32 (input &&& 0x00C00000) 6 ||| shl32 (input &&& 0x0000C000) 12 |||
      shl32 (input &&& 0x000000C0) 18 ||| ((input &&& 0x000C0000) >>> 6) |||
      ((input &&& 0x00030000) >>> 12) ||| ((input &&& 0x00000300) >>> 6))
  let input2 := input1 ^^^
    (((input1 &&& 0x30000000) >>> 6) ||| ((input1 &&& 0x0C000000) >>> 12) |||
      ((input1 &&& 0x03000000) >>> 18) ||| shl32 (input1 &&& 0x00003000) 6 |||
      shl32 (input1 &&& 0x00000030) 12 ||| shl32 (input1 &&& 0x0000000C) 6)
  let input3 := input2 ^^^
    (shl32 (input2 &&& 0x00C00000) 6 ||| shl32 (input2 &&& 0x0000C000) 12 |||
      shl32 (input2 &&& 0x000000C0) 18 ||| ((input2 &&& 0x000C0000) >>> 6) |||
      ((input2 &&& 0x00030000) >>> 12) ||| ((input2 &&& 0x00000300) >>> 6))
  input3

/-- Source `get_block`. -/
def get_block (block : Nat) : Nat :=
  encode_decode_block (bswap32 block)

/-- Source `get_xored_block`. -/
def get_xored_block (block key : Nat) : Nat :=
  encode_decode_block (bswap32 block ^^^ key)

/-- Source `get_vendor`: `b1 << 16 | (b2 & 0x0000FFFF)`. -/
def get_vendor (b1 b2 : Nat) : Nat :=
  shl32 b1 16 ||| (b2 &&& 0x0000FFFF)

/-- Source `mykey_has_lockid` (declared inside `mykey_parse`):
`(data->blocks[5] & 0xFF) == 0x7F`. -/
def mykey_has_lockid (data : St25tbData) : Option Bool := do
  let b5 ← data.blocks[5]?
  pure ((b5 &&& 0xFF) == 0x7F)

/-! ## `mykey_parse` -/

/-- The `for (int i = 0; i < 5; i++)` loop of `mykey_parse`, started at index `i`
with `n` iterations left.  The loop reads block `i`; when the block differs from
`0xFFFFFFFF` it logs the index and executes `break`, which ends this loop.  The
result is the logged index, if any. -/
def otp_loop (data : St25tbData) : Nat → Nat → Option (Option Nat)
  | 0, _ => some none
  | n + 1, i =>
    match data.blocks[i]? with
    | none => none
    | some b => if b ≠ 0xFFFFFFFF then some (some i) else otp_loop data n (i + 1)

/-- The local variables computed under `// Calc data` in `mykey_parse`, and the
value of `mykey_has_lockid(data)`. -/
structure MykeyCalc where
  _uid : Nat
  _count_down_counter_new : Nat
  _vendor_id : Nat
  _master_key : Nat
  _encryption_key : Nat
  credit : Nat
  _previous_credit : Nat
  _is_bound : Bool
  lock_id : Bool
  deriving DecidableEq, Repr

/-- The `// Calc data` part of `mykey_parse`.  `credit` and `_previous_credit`
are `uint16_t`, so the decoded words are truncated to 16 bits. -/
def mykey_calc (data : St25tbData) : Option MykeyCalc := do
  let _uid ← get_uid data.uid
  let b6 ← data.blocks[6]?
  let _count_down_counter_new := new_get_count_down_counter (bswap32 b6)
  let v1 ← data.blocks[MYKEY_BLOCK_VENDOR_ID_1]?
  let v2 ← data.blocks[MYKEY_BLOCK_VENDOR_ID_2]?
  let _vendor_id := get_vendor (get_block v1) (get_block v2)
  let _master_key := get_master_key _uid _vendor_id
  let _encryption_key := get_encryption_key _master_key _count_down_counter_new
  let c ← data.blocks[MYKEY_BLOCK_CURRENT_CREDIT]?
  let credit := get_xored_block c _encryption_key % 65536
  let p ← data.blocks[MYKEY_BLOCK_PREVIOUS_CREDIT]?
  let _previous_credit := get_block p % 65536
  let _is_bound := decide (get_is_bound _vendor_id ≠ 0)
  let lock_id ← mykey_has_lockid data
  pure ⟨_uid, _count_down_counter_new, _vendor_id, _master_key, _encryption_key, credit,
    _previous_credit, _is_bound, lock_id⟩

/-- Left padding of a digit string with `'0'` up to `width` characters. -/
def zero_pad (width : Nat) (digits : List Char) : String :=
  String.mk (List.replicate (width - digits.length) '0' ++ digits)

/-- The `printf` directive `%08lX`. -/
def fmt_08lX (n : Nat) : String :=
  zero_pad 8 ((Nat.toDigits 16 n).map Char.toUpper)

/-- The `printf` directive `%d` on a value that is not negative. -/
def fmt_d (n : Nat) : String :=
  String.mk (Nat.toDigits 10 n)

/-- The `printf` directive `%02d` on a value that is not negative. -/
def fmt_02d (n : Nat) : String :=
  zero_pad 2 (Nat.toDigits 10 n)

/-- The `// parse data` part of `mykey_parse`: the text the seven
`furi_string_cat_printf` calls append to `parsed_data`. -/
def mykey_print (c : MykeyCalc) : String :=
  "\x1b#MyKey Card\n" ++
  "UID: " ++ fmt_08lX c._uid ++ "\n" ++
  "Vendor ID: " ++ fmt_08lX c._vendor_id ++ "\n" ++
  "Current Credit: " ++ fmt_d (c.credit / 100) ++ "." ++ fmt_02d (c.credit % 100) ++ " E \n" ++
  "Previus Credit: " ++ fmt_d (c._previous_credit / 100) ++ "." ++
    fmt_02d (c._previous_credit % 100) ++ " E \n" ++
  "Is Bound: " ++ (if c._is_bound then "yes" else "no") ++ "\n" ++
  "Lock ID: " ++ (if c.lock_id then "maybe" else "none") ++ "\n"

/-- Source `mykey_parse`: the returned flag `parsed` and the final contents of
`parsed_data`; `none` when a block or identifier byte is read out of range. -/
def mykey_parse (data : St25tbData) (parsed_data : String) : Option (Bool × String) :=
  if data.type ≠ St25tbType.St25tbType04k ∧ data.type ≠ St25tbType.St25tbTypeX4k then
    some (false, parsed_data)
  else
    match otp_loop data 5 0 with
    | none => none
    | some _ =>
      match data.blocks[8]? with
      | none => none
      | some b8 =>
        if ((b8 >>> 16) &&& 0xFF) > 0x31 ∨ ((b8 >>> 8) &&& 0xFF) > 0x12 then
          some (false, parsed_data)
        else if data.system_otp_block ≠ 0xFEFFFFFF then
          some (false, parsed_data)
        else
          match mykey_calc data with
          | none => none
          | some c => some (true, parsed_data ++ mykey_print c)

/-! ## Sample inputs -/

/-- A block array of 36 entries of an unbound card with current credit 12.34
and previous credit 10.00; `b2` is block 2 and `b8` the production-date block. -/
def sample_blocks (b2 b8 : Nat) : List Nat :=
  [0xFFFFFFFF, 0xFFFFFFFF, b2, 0xFFFFFFFF, 0xFFFFFFFF, 0x0000007F, 0xFEFFFFFF, 0x00000000, b8,
   0, 0, 0, 0, 0, 0, 0, 0, 0, 0, 0, 0, 0, 0, 0,
   0x080F0D0F, 0x07000200,
   0, 0, 0, 0, 0, 0, 0,
   0xE2A4D301, 0, 0x0C020203]

/-- A card that passes every validation rule. -/
def sample_card : St25tbData :=
  { type := St25tbType.St25tbType04k
    uid := [0xD0, 0x02, 0x33, 0x00, 0x12, 0x34, 0x56, 0x78]
    blocks := sample_blocks 0xFFFFFFFF 0x00251100
    system_otp_block := 0xFEFFFFFF }

/-- The card `sample_card` with OTP block 2 cleared. -/
def sample_card_bad_otp : St25tbData :=
  { sample_card with blocks := sample_blocks 0x00000000 0x00251100 }

/-- The card `sample_card` with month byte `0x13` in the production-date block. -/
def sample_card_bad_date : St25tbData :=
  { sample_card with blocks := sample_blocks 0xFFFFFFFF 0x00251300 }

/-- The local variables `mykey_parse` computes on `sample_card`. -/
def sample_calc : MykeyCalc :=
  { _uid := 0x12345678
    _count_down_counter_new := 0x01000000
    _vendor_id := 0xFEDC0123
    _master_key := 0x22D2A0E0
    _encryption_key := 0x02D2A0E0
    credit := 1234
    _previous_credit := 1000
    _is_bound := false
    lock_id := true }

/-- The text `mykey_parse` appends for `sample_card`. -/
def sample_text : String :=
  "\x1b#MyKey Card\nUID: 12345678\nVendor ID: FEDC0123\nCurrent Credit: 12.34 E \n" ++
  "Previus Credit: 10.00 E \nIs Bound: no\nLock ID: maybe\n"

/-! ## The rounds of the cipher and its specification -/

/-- Lines 66-67 and 70-71 of the source: the statement that `encode_decode_block`
executes as its first and as its third round. -/
def swap_round_a (input : Nat) : Nat :=
  input ^^^
    (shl32 (input &&& 0x00C00000) 6 ||| shl32 (input &&& 0x0000C000) 12 |||
      shl32 (input &&& 0x000000C0) 18 ||| ((input &&& 0x000C0000) >>> 6) |||
      ((input &&& 0x00030000) >>> 12) ||| ((input &&& 0x00000300) >>> 6))

/-- Lines 68-69 of the source: the statement that `encode_decode_block` executes
as its second round. -/
def swap_round_b (input : Nat) : Nat :=
  input ^^^
    (((input &&& 0x30000000) >>> 6) ||| ((input &&& 0x0C000000) >>> 12) |||
      ((input &&& 0x03000000) >>> 18) ||| shl32 (input &&& 0x00003000) 6 |||
      shl32 (input &&& 0x00000030) 12 ||| shl32 (input &&& 0x0000000C) 6)

/-- The exchange of 2-bit groups in the words of the specification, on bit
positions: 28-29 with 22-23, 26-27 with 14-15, 24-25 with 6-7, 12-13 with 18-19,
4-5 with 16-17, 2-3 with 8-9; every other position is left where it is.  The
value is the position whose bit ends up at position `i`. -/
def group_swap_index (i : Nat) : Nat :=
  if 28 ≤ i ∧ i < 30 then i - 6
  else if 22 ≤ i ∧ i < 24 then i + 6
  else if 26 ≤ i ∧ i < 28 then i - 12
  else if 14 ≤ i ∧ i < 16 then i + 12
  else if 24 ≤ i ∧ i < 26 then i - 18
  else if 6 ≤ i ∧ i < 8 then i + 18
  else if 12 ≤ i ∧ i < 14 then i + 6
  else if 18 ≤ i ∧ i < 20 then i - 6
  else if 4 ≤ i ∧ i < 6 then i + 12
  else if 16 ≤ i ∧ i < 18 then i - 12
  else if 2 ≤ i ∧ i < 4 then i + 6
  else if 8 ≤ i ∧ i < 10 then i - 6
  else i

/-- The exchange of 2-bit groups in the words of the specification, on words:
the bits under the mask `0xC0300C03` stay, and each of the twelve other groups
is read at its old position and written at its new one. -/
def exchange_groups_spec (x : Nat) : Nat :=
  (x &&& 0xC0300C03) |||
  (((x >>> 22) &&& 3) <<< 28) ||| (((x >>> 28) &&& 3) <<< 22) |||
  (((x >>> 14) &&& 3) <<< 26) ||| (((x >>> 26) &&& 3) <<< 14) |||
  (((x >>> 6) &&& 3) <<< 24) ||| (((x >>> 24) &&& 3) <<< 6) |||
  (((x >>> 18) &&& 3) <<< 12) ||| (((x >>> 12) &&& 3) <<< 18) |||
  (((x >>> 16) &&& 3) <<< 4) ||| (((x >>> 4) &&& 3) <<< 16) |||
  (((x >>> 8) &&& 3) <<< 2) ||| (((x >>> 2) &&& 3) <<< 8)

/-- The number of set bits among the 32 low bits of a word. -/
def popcount32 (x : Nat) : Nat :=
  ((List.range 32).map (fun i => (x.testBit i).toNat)).sum

/-- The card `sample_card` cut down to its first `n` blocks. -/
def short_card (n : Nat) : St25tbData :=
  { sample_card with blocks := sample_card.blocks.take n }

/-- The card `sample_card` with counter block 6 equal to 0. -/
def sample_card_counter0 : St25tbData :=
  { sample_card with blocks := sample_card.blocks.set 6 0 }

/-- The local variables `mykey_parse` computes on `sample_card_counter0`. -/
def sample_calc_counter0 : MykeyCalc :=
  { _uid := 0x12345678
    _count_down_counter_new := 0xFFFFFFFF
    _vendor_id := 0xFEDC0123
    _master_key := 0x22D2A0E0
    _encryption_key := 0
    credit := 1138
    _previous_credit := 1000
    _is_bound := false
    lock_id := true }

/-- The card `sample_card` with vendor block `0x18` cleared: a bound card. -/
def sample_card_bound : St25tbData :=
  { sample_card with blocks := sample_card.blocks.set 0x18 0 }

/-- The text `mykey_parse` appends for `sample_card_bound`. -/
def sample_text_bound : String :=
  "\x1b#MyKey Card\nUID: 12345678\nVendor ID: 00000123\nCurrent Credit: 11.70 E \n" ++
  "Previus Credit: 10.00 E \nIs Bound: yes\nLock ID: maybe\n"

/-! ## Lemmas on the parser -/

theorem getElem?_of_lt_length (l : List Nat) (i : Nat) (h : i < l.length) :
    ∃ b, l[i]? = some b :=
  ⟨l[i], List.getElem?_eq_getElem h⟩

/-- The OTP loop never fails on five readable blocks. -/
theorem otp_loop_isSome (data : St25tbData) (h : 5 ≤ data.blocks.length) :
    ∃ r, otp_loop data 5 0 = some r := by
  obtain ⟨b0, h0⟩ := getElem?_of_lt_length data.blocks 0 (by omega)
  obtain ⟨b1, h1⟩ := getElem?_of_lt_length data.blocks 1 (by omega)
  obtain ⟨b2, h2⟩ := getElem?_of_lt_length data.blocks 2 (by omega)
  obtain ⟨b3, h3⟩ := getElem?_of_lt_length data.blocks 3 (by omega)
  obtain ⟨b4, h4⟩ := getElem?_of_lt_length data.blocks 4 (by omega)
  simp only [otp_loop, h0, h1, h2, h3, h4]
  repeat (first | exact ⟨_, rfl⟩ | split)

/-- The calculation never fails on eight identifier bytes and 36 blocks. -/
theorem mykey_calc_isSome (data : St25tbData) (hu : data.uid.length = 8)
    (hb : 36 ≤ data.blocks.length) : ∃ c, mykey_calc data = some c := by
  obtain ⟨u4, h4⟩ := getElem?_of_lt_length data.uid 4 (by omega)
  obtain ⟨u5, h5⟩ := getElem?_of_lt_length data.uid 5 (by omega)
  obtain ⟨u6, h6⟩ := getElem?_of_lt_length data.uid 6 (by omega)
  obtain ⟨u7, h7⟩ := getElem?_of_lt_length data.uid 7 (by omega)
  obtain ⟨b5, hb5⟩ := getElem?_of_lt_length data.blocks 5 (by omega)
  obtain ⟨b6, hb6⟩ := getElem?_of_lt_length data.blocks 6 (by omega)
  obtain ⟨v1, hv1⟩ := getElem?_of_lt_length data.blocks 0x18 (by omega)
  obtain ⟨v2, hv2⟩ := getElem?_of_lt_length data.blocks 0x19 (by omega)
  obtain ⟨c, hc⟩ := getElem?_of_lt_length data.blocks 0x21 (by omega)
  obtain ⟨p, hp⟩ := getElem?_of_lt_length data.blocks 0x23 (by omega)
  simp [mykey_calc, get_uid, mykey_has_lockid, MYKEY_BLOCK_VENDOR_ID_1,
    MYKEY_BLOCK_VENDOR_ID_2, MYKEY_BLOCK_CURRENT_CREDIT, MYKEY_BLOCK_PREVIOUS_CREDIT,
    h4, h5, h6, h7, hb5, hb6, hv1, hv2, hc, hp]

/-- The sample card meets the invariants of its C type. -/
theorem sample_card_WF : sample_card.WF := by
  decide

/-- The locals computed on `sample_card`. -/
theorem mykey_calc_sample_card : mykey_calc sample_card = some sample_calc := by
  decide

/-! ## Validation and rejection (C1 to C4) -/

/-- C1: a card of type `St25tbType04k` or `St25tbTypeX4k` with eight identifier
bytes and at least 36 blocks, whose blocks 0..4 all equal `0xFFFFFFFF`, whose
block 8 has `((b8 >> 16) & 0xFF) <= 0x31` and `((b8 >> 8) & 0xFF) <= 0x12`, and
whose system OTP block is `0xFEFFFFFF`, is accepted: `mykey_parse` returns true
and appends the text of the decoded card. -/
theorem mykey_parse_accepts_valid (data : St25tbData) (parsed_data : String)
    (hu : data.uid.length = 8) (hb : 36 ≤ data.blocks.length)
    (htype : data.type = St25tbType.St25tbType04k ∨ data.type = St25tbType.St25tbTypeX4k)
    (hotp : ∀ i, i < 5 → data.blocks[i]? = some 0xFFFFFFFF)
    (hdate : ∃ b8, data.blocks[8]? = some b8 ∧
      ((b8 >>> 16) &&& 0xFF) ≤ 0x31 ∧ ((b8 >>> 8) &&& 0xFF) ≤ 0x12)
    (hsys : data.system_otp_block = 0xFEFFFFFF) :
    ∃ c, mykey_calc data = some c ∧
      mykey_parse data parsed_data = some (true, parsed_data ++ mykey_print c) := by
  obtain ⟨c, hc⟩ := mykey_calc_isSome data hu hb
  obtain ⟨b8, h8, hd, hm⟩ := hdate
  have hloop : otp_loop data 5 0 = some none := by
    simp [otp_loop, hotp 0 (by omega), hotp 1 (by omega), hotp 2 (by omega),
      hotp 3 (by omega), hotp 4 (by omega)]
  refine ⟨c, hc, ?_⟩
  have ht : ¬ (data.type ≠ St25tbType.St25tbType04k ∧ data.type ≠ St25tbType.St25tbTypeX4k) := by
    rcases htype with h | h <;> simp [h]
  have hdt : ¬ (((b8 >>> 16) &&& 0xFF) > 0x31 ∨ ((b8 >>> 8) &&& 0xFF) > 0x12) := by
    omega
  simp only [mykey_parse, if_neg ht, hloop, h8, if_neg hdt, hsys, ne_eq, not_true_eq_false,
    if_false, hc]

theorem mykey_parse_accepts_valid_witness :
    ∃ c, mykey_calc sample_card = some c ∧
      mykey_parse sample_card "" = some (true, "" ++ mykey_print c) :=
  mykey_parse_accepts_valid sample_card "" (by decide) (by decide) (by decide) (by decide)
    ⟨0x00251100, by decide, by decide, by decide⟩ (by decide)

/-- C2, evaluated on the code: with OTP block 2 equal to `0x00000000` and every
other rule satisfied, `mykey_parse` still returns true and appends the decoded
card, although the OTP loop has found the bad block at index 2. -/
theorem mykey_parse_bad_otp_accepted :
    otp_loop sample_card_bad_otp 5 0 = some (some 2) ∧
      mykey_parse sample_card_bad_otp "" = some (true, sample_text) := by
  decide

/-- C3: whenever `mykey_parse` returns true, the card type is `St25tbType04k` or
`St25tbTypeX4k`, block 8 has `((b8 >> 16) & 0xFF) <= 0x31` and
`((b8 >> 8) & 0xFF) <= 0x12`, and the system OTP block is `0xFEFFFFFF`; and a
card (with blocks 0..8 present) that violates one of these three rules is
rejected: `mykey_parse` returns false. -/
theorem mykey_parse_true_imp_rules (data : St25tbData) (parsed_data : String) :
    (∀ out, mykey_parse data parsed_data = some (true, out) →
      (data.type = St25tbType.St25tbType04k ∨ data.type = St25tbType.St25tbTypeX4k) ∧
      (∃ b8, data.blocks[8]? = some b8 ∧
        ((b8 >>> 16) &&& 0xFF) ≤ 0x31 ∧ ((b8 >>> 8) &&& 0xFF) ≤ 0x12) ∧
      data.system_otp_block = 0xFEFFFFFF) ∧
    (9 ≤ data.blocks.length →
      ¬ ((data.type = St25tbType.St25tbType04k ∨ data.type = St25tbType.St25tbTypeX4k) ∧
        (∃ b8, data.blocks[8]? = some b8 ∧
          ((b8 >>> 16) &&& 0xFF) ≤ 0x31 ∧ ((b8 >>> 8) &&& 0xFF) ≤ 0x12) ∧
        data.system_otp_block = 0xFEFFFFFF) →
      mykey_parse data parsed_data = some (false, parsed_data)) := by
  constructor
  · intro out h
    unfold mykey_parse at h
    split at h
    · simp at h
    · rename_i ht
      split at h
      · simp at h
      · split at h
        · simp at h
        · rename_i b8 h8
          split at h
          · simp at h
          · rename_i hd
            split at h
            · simp at h
            · rename_i hs
              refine ⟨?_, ⟨b8, h8, by omega, by omega⟩, by simpa using hs⟩
              by_contra hc
              exact ht ⟨fun e => hc (Or.inl e), fun e => hc (Or.inr e)⟩
  · intro hb hviol
    obtain ⟨r, hr⟩ := otp_loop_isSome data (by omega)
    obtain ⟨b8, h8⟩ := getElem?_of_lt_length data.blocks 8 (by omega)
    unfold mykey_parse
    split
    · rfl
    · rename_i ht
      simp only [hr, h8]
      split
      · rfl
      · rename_i hd
        split
        · rfl
        · rename_i hs
          exfalso
          apply hviol
          refine ⟨?_, ⟨b8, h8, by omega, by omega⟩, by simpa using hs⟩
          by_contra hc
          exact ht ⟨fun e => hc (Or.inl e), fun e => hc (Or.inr e)⟩

theorem mykey_parse_true_imp_rules_witness :
    (St25tbType.St25tbType04k = St25tbType.St25tbType04k ∨
        St25tbType.St25tbType04k = St25tbType.St25tbTypeX4k) ∧
      (∃ b8, sample_card.blocks[8]? = some b8 ∧
        ((b8 >>> 16) &&& 0xFF) ≤ 0x31 ∧ ((b8 >>> 8) &&& 0xFF) ≤ 0x12) ∧
      sample_card.system_otp_block = 0xFEFFFFFF ∧
    mykey_parse sample_card_bad_date "" = some (false, "") :=
  ⟨((mykey_parse_true_imp_rules sample_card "").1 sample_text (by decide)).1,
   ((mykey_parse_true_imp_rules sample_card "").1 sample_text (by decide)).2.1,
   ((mykey_parse_true_imp_rules sample_card "").1 sample_text (by decide)).2.2,
   (mykey_parse_true_imp_rules sample_card_bad_date "").2 (by decide) (by decide)⟩

/-- C4: when `mykey_parse` returns false, `parsed_data` is what it was before the
call: no rejection path appends anything. -/
theorem mykey_parse_false_unchanged (data : St25tbData) (parsed_data out : String)
    (h : mykey_parse data parsed_data = some (false, out)) : out = parsed_data := by
  unfold mykey_parse at h
  repeat (first | split at h | simp_all)

theorem mykey_parse_false_unchanged_witness :
    mykey_parse sample_card_bad_date "MyKey" = some (false, "MyKey") ∧ "MyKey" = "MyKey" :=
  ⟨by decide, mykey_parse_false_unchanged sample_card_bad_date "MyKey" "MyKey" (by decide)⟩

/-! ## Word-level lemmas -/

theorem and_mask_shift (x k w : Nat) :
    x &&& ((2 ^ w - 1) <<< k) = ((x >>> k) % 2 ^ w) <<< k := by
  apply Nat.eq_of_testBit_eq
  intro j
  simp only [Nat.testBit_and, Nat.testBit_shiftLeft, Nat.testBit_two_pow_sub_one,
    Nat.testBit_mod_two_pow, Nat.testBit_shiftRight]
  by_cases h : k ≤ j
  · simp [h, Nat.add_sub_cancel' h, Bool.and_comm]
  · simp [h]

theorem and_FF00 (x : Nat) : x &&& 0xFF00 = (x / 256 % 256) * 256 := by
  have h := and_mask_shift x 8 8
  simp only [Nat.shiftLeft_eq, Nat.shiftRight_eq_div_pow] at h
  norm_num at h
  exact h

theorem and_FF0000 (x : Nat) : x &&& 0xFF0000 = (x / 65536 % 256) * 65536 := by
  have h := and_mask_shift x 16 8
  simp only [Nat.shiftLeft_eq, Nat.shiftRight_eq_div_pow] at h
  norm_num at h
  exact h

theorem or_eq_add_of_lt (a b i : Nat) (hb : b < 2 ^ i) : a * 2 ^ i ||| b = a * 2 ^ i + b := by
  rw [Nat.mul_comm a, Nat.mul_add_lt_is_or hb]

/-- The four shifted and masked fields of `new_get_count_down_counter` are the
bytes of the argument in reversed order. -/
theorem swap_fields_eq_bswap32 (x : Nat) (hx : x < 4294967296) :
    shl32 x 24 ||| shl32 (x &&& 0x0000FF00) 8 ||| ((x &&& 0x00FF0000) >>> 8) ||| (x >>> 24) =
      bswap32 x := by
  have e1 : shl32 x 24 = (x % 256) * 2 ^ 24 := by
    simp only [shl32, Nat.shiftLeft_eq]; omega
  have e2 : shl32 (x &&& 0x0000FF00) 8 = (x / 256 % 256) * 2 ^ 16 := by
    simp only [shl32, Nat.shiftLeft_eq, and_FF00]; omega
  have e3 : (x &&& 0x00FF0000) >>> 8 = (x / 65536 % 256) * 2 ^ 8 := by
    simp only [Nat.shiftRight_eq_div_pow, and_FF0000]; omega
  have e4 : x >>> 24 = x / 16777216 % 256 := by
    simp only [Nat.shiftRight_eq_div_pow]; omega
  have s1 : (x % 256) * 2 ^ 24 ||| (x / 256 % 256) * 2 ^ 16 =
      ((x % 256) * 256 + x / 256 % 256) * 2 ^ 16 := by
    have h := or_eq_add_of_lt (x % 256) ((x / 256 % 256) * 2 ^ 16) 24 (by omega)
    rw [h]; omega
  have s2 : ((x % 256) * 256 + x / 256 % 256) * 2 ^ 16 ||| (x / 65536 % 256) * 2 ^ 8 =
      (((x % 256) * 256 + x / 256 % 256) * 256 + x / 65536 % 256) * 2 ^ 8 := by
    have h := or_eq_add_of_lt ((x % 256) * 256 + x / 256 % 256) ((x / 65536 % 256) * 2 ^ 8) 16
      (by omega)
    rw [h]; omega
  have s3 : (((x % 256) * 256 + x / 256 % 256) * 256 + x / 65536 % 256) * 2 ^ 8 |||
      x / 16777216 % 256 = bswap32 x := by
    have h := or_eq_add_of_lt (((x % 256) * 256 + x / 256 % 256) * 256 + x / 65536 % 256)
      (x / 16777216 % 256) 8 (by omega)
    rw [h]; unfold bswap32; omega
  rw [e1, e2, e3, e4, s1, s2, s3]

theorem bswap32_lt (x : Nat) : bswap32 x < 4294967296 := by
  unfold bswap32; omega

theorem bswap32_bytes (a b c d : Nat) (ha : a < 256) (hb : b < 256) (hc : c < 256)
    (hd : d < 256) :
    bswap32 (a + 256 * b + 65536 * c + 16777216 * d) =
      d + 256 * c + 65536 * b + 16777216 * a := by
  unfold bswap32; omega

theorem bytes_of_word (x : Nat) (hx : x < 4294967296) :
    ∃ a b c d, a < 256 ∧ b < 256 ∧ c < 256 ∧ d < 256 ∧
      x = a + 256 * b + 65536 * c + 16777216 * d :=
  ⟨x % 256, x / 256 % 256, x / 65536 % 256, x / 16777216, by omega, by omega, by omega,
    by omega, by omega⟩

theorem bswap32_bswap32 (x : Nat) (hx : x < 4294967296) : bswap32 (bswap32 x) = x := by
  obtain ⟨a, b, c, d, ha, hb, hc, hd, rfl⟩ := bytes_of_word x hx
  rw [bswap32_bytes a b c d ha hb hc hd, bswap32_bytes d c b a hd hc hb ha]

theorem bswap32_not32 (x : Nat) (hx : x < 4294967296) :
    bswap32 (not32 x) = not32 (bswap32 x) := by
  obtain ⟨a, b, c, d, ha, hb, hc, hd, rfl⟩ := bytes_of_word x hx
  have e : not32 (a + 256 * b + 65536 * c + 16777216 * d) =
      (255 - a) + 256 * (255 - b) + 65536 * (255 - c) + 16777216 * (255 - d) := by
    unfold not32; omega
  rw [e, bswap32_bytes _ _ _ _ (by omega) (by omega) (by omega) (by omega),
    bswap32_bytes a b c d ha hb hc hd]
  unfold not32; omega

theorem not32_not32 (x : Nat) (hx : x < 4294967296) : not32 (not32 x) = x := by
  unfold not32; omega

theorem new_get_count_down_counter_eq (x : Nat) (hx : x < 4294967296) :
    new_get_count_down_counter x = not32 (bswap32 x) := by
  unfold new_get_count_down_counter
  rw [swap_fields_eq_bswap32 x hx]

theorem new_get_count_down_counter_twice (x : Nat) (hx : x < 4294967296) :
    new_get_count_down_counter (new_get_count_down_counter x) = x := by
  have h1 : not32 (bswap32 x) < 4294967296 := by unfold not32; omega
  rw [new_get_count_down_counter_eq x hx, new_get_count_down_counter_eq _ h1,
    bswap32_not32 _ (bswap32_lt x), bswap32_bswap32 x hx, not32_not32 x hx]

theorem or_mod_two_pow32 (a b : Nat) :
    (a ||| b) % 4294967296 = a % 4294967296 ||| b % 4294967296 := by
  have e : (4294967296 : Nat) = 2 ^ 32 := by norm_num
  rw [e]
  apply Nat.eq_of_testBit_eq
  intro j
  simp only [Nat.testBit_mod_two_pow, Nat.testBit_or, Bool.and_or_distrib_left]

theorem get_uid_of_bytes (uid : List Nat) (a4 a5 a6 a7 : Nat)
    (h4 : uid[4]? = some a4) (h5 : uid[5]? = some a5) (h6 : uid[6]? = some a6)
    (h7 : uid[7]? = some a7) (b4 : a4 < 256) (b5 : a5 < 256) (b6 : a6 < 256) (b7 : a7 < 256) :
    get_uid uid = some (a4 * 2 ^ 24 + a5 * 2 ^ 16 + a6 * 2 ^ 8 + a7) := by
  have s1 : a7 ||| a6 <<< 8 = a6 * 2 ^ 8 + a7 := by
    rw [Nat.or_comm, Nat.shiftLeft_eq, or_eq_add_of_lt a6 a7 8 (by omega)]
  have s2 : (a6 * 2 ^ 8 + a7) ||| a5 <<< 16 = a5 * 2 ^ 16 + (a6 * 2 ^ 8 + a7) := by
    rw [Nat.or_comm, Nat.shiftLeft_eq, or_eq_add_of_lt a5 _ 16 (by omega)]
  have s3 : (a5 * 2 ^ 16 + (a6 * 2 ^ 8 + a7)) ||| a4 <<< 24 =
      a4 * 2 ^ 24 + (a5 * 2 ^ 16 + (a6 * 2 ^ 8 + a7)) := by
    rw [Nat.or_comm, Nat.shiftLeft_eq, or_eq_add_of_lt a4 _ 24 (by omega)]
  simp only [get_uid, h4, h5, h6, h7, Option.bind_eq_bind, Option.some_bind, Option.pure_def,
    s1, s2, s3]
  congr 1
  omega

/-- Multiplication by an odd factor is injective modulo `2 ^ 32`. -/
theorem mul_odd_mod_injective (u1 u2 m : Nat) (hm : m % 2 = 1)
    (h : (u1 * m) % 4294967296 = (u2 * m) % 4294967296) :
    u1 % 4294967296 = u2 % 4294967296 := by
  have hodd : Odd m := Nat.odd_iff.mpr hm
  have hc : Nat.Coprime (2 ^ 32) m := Nat.Coprime.pow_left 32 (Nat.coprime_two_left.mpr hodd)
  have e : (4294967296 : Nat) = 2 ^ 32 := by norm_num
  rw [e] at h ⊢
  exact Nat.ModEq.cancel_right_of_coprime hc h

/-! ## Identifier, counter and keys (C5 to C10) -/

/-- C5, as stated, fails: on the identifier `00 00 00 00 01 00 00 00` the code
returns `0x01000000`, while `uid[7]*2^24 + uid[6]*2^16 + uid[5]*2^8 + uid[4]` is 1. -/
theorem get_uid_not_byte7_first :
    get_uid [0, 0, 0, 0, 1, 0, 0, 0] = some 0x01000000 ∧
      get_uid [0, 0, 0, 0, 1, 0, 0, 0] ≠ some (0 * 2 ^ 24 + 0 * 2 ^ 16 + 0 * 2 ^ 8 + 1) := by
  decide

/-- C5, amended: for every identifier whose bytes 4..7 are `a4 a5 a6 a7`,
`get_uid` is the 32-bit value with bytes 4, 5, 6, 7 in most-to-least significant
order, `a4*2^24 + a5*2^16 + a6*2^8 + a7`, and every identifier with the same
bytes 4..7 has the same value: bytes 0..3 never influence the result. -/
theorem get_uid_byte4_first (uid : List Nat) (a4 a5 a6 a7 : Nat)
    (h4 : uid[4]? = some a4) (h5 : uid[5]? = some a5) (h6 : uid[6]? = some a6)
    (h7 : uid[7]? = some a7) (b4 : a4 < 256) (b5 : a5 < 256) (b6 : a6 < 256) (b7 : a7 < 256) :
    get_uid uid = some (a4 * 2 ^ 24 + a5 * 2 ^ 16 + a6 * 2 ^ 8 + a7) ∧
    ∀ uid2 : List Nat, uid2[4]? = some a4 → uid2[5]? = some a5 → uid2[6]? = some a6 →
      uid2[7]? = some a7 → get_uid uid2 = get_uid uid := by
  refine ⟨get_uid_of_bytes uid a4 a5 a6 a7 h4 h5 h6 h7 b4 b5 b6 b7, ?_⟩
  intro uid2 g4 g5 g6 g7
  rw [get_uid_of_bytes uid a4 a5 a6 a7 h4 h5 h6 h7 b4 b5 b6 b7,
    get_uid_of_bytes uid2 a4 a5 a6 a7 g4 g5 g6 g7 b4 b5 b6 b7]

theorem get_uid_byte4_first_witness :
    get_uid [0xD0, 0x02, 0x33, 0x00, 0x12, 0x34, 0x56, 0x78] =
        some (0x12 * 2 ^ 24 + 0x34 * 2 ^ 16 + 0x56 * 2 ^ 8 + 0x78) ∧
      get_uid [0x00, 0x00, 0x00, 0x00, 0x12, 0x34, 0x56, 0x78] =
        get_uid [0xD0, 0x02, 0x33, 0x00, 0x12, 0x34, 0x56, 0x78] :=
  ⟨(get_uid_byte4_first [0xD0, 0x02, 0x33, 0x00, 0x12, 0x34, 0x56, 0x78] 0x12 0x34 0x56 0x78
      (by decide) (by decide) (by decide) (by decide) (by decide) (by decide) (by decide)
      (by decide)).1,
    (get_uid_byte4_first [0xD0, 0x02, 0x33, 0x00, 0x12, 0x34, 0x56, 0x78] 0x12 0x34 0x56 0x78
      (by decide) (by decide) (by decide) (by decide) (by decide) (by decide) (by decide)
      (by decide)).2 [0x00, 0x00, 0x00, 0x00, 0x12, 0x34, 0x56, 0x78]
      (by decide) (by decide) (by decide) (by decide)⟩

/-- C6: for every 32-bit `x`, `new_get_count_down_counter x` is the complement
of the byte-reversed word: it equals
`~((x << 24) | ((x & 0xFF00) << 8) | ((x & 0xFF0000) >> 8) | (x >> 24)) mod 2^32`
and `~bswap32(x)`; on `0x00000000` it is `0xFFFFFFFF` and on `0xFFFFFFFF` it is 0. -/
theorem new_get_count_down_counter_closed_form (x : Nat) (hx : x < 4294967296) :
    new_get_count_down_counter x =
      4294967295 - (x <<< 24 ||| (x &&& 0xFF00) <<< 8 ||| (x &&& 0xFF0000) >>> 8 ||| x >>> 24) %
        4294967296 ∧
    new_get_count_down_counter x = 4294967295 - bswap32 x ∧
    new_get_count_down_counter 0x00000000 = 0xFFFFFFFF ∧
    new_get_count_down_counter 0xFFFFFFFF = 0x00000000 := by
  refine ⟨?_, ?_, by decide, by decide⟩
  · have c3 : (x &&& 0xFF0000) >>> 8 % 4294967296 = (x &&& 0xFF0000) >>> 8 := by
      apply Nat.mod_eq_of_lt
      simp only [Nat.shiftRight_eq_div_pow, and_FF0000]; omega
    have c4 : x >>> 24 % 4294967296 = x >>> 24 := by
      apply Nat.mod_eq_of_lt
      simp only [Nat.shiftRight_eq_div_pow]; omega
    have key : (x <<< 24 ||| (x &&& 0xFF00) <<< 8 ||| (x &&& 0xFF0000) >>> 8 ||| x >>> 24) %
        4294967296 =
        shl32 x 24 ||| shl32 (x &&& 0xFF00) 8 ||| (x &&& 0xFF0000) >>> 8 ||| x >>> 24 := by
      rw [or_mod_two_pow32, or_mod_two_pow32, or_mod_two_pow32, c3, c4]
      rfl
    unfold new_get_count_down_counter not32
    rw [← key, Nat.mod_mod]
  · rw [new_get_count_down_counter_eq x hx, not32, Nat.mod_eq_of_lt (bswap32_lt x)]

theorem new_get_count_down_counter_closed_form_witness :
    new_get_count_down_counter 0x12345678 =
      4294967295 - (0x12345678 <<< 24 ||| (0x12345678 &&& 0xFF00) <<< 8 |||
        (0x12345678 &&& 0xFF0000) >>> 8 ||| 0x12345678 >>> 24) % 4294967296 ∧
    new_get_count_down_counter 0x12345678 = 4294967295 - bswap32 0x12345678 ∧
    new_get_count_down_counter 0x00000000 = 0xFFFFFFFF ∧
    new_get_count_down_counter 0xFFFFFFFF = 0x00000000 :=
  new_get_count_down_counter_closed_form 0x12345678 (by decide)

/-- C7, as stated, fails: no 32-bit `x` has
`new_get_count_down_counter (new_get_count_down_counter x) ≠ x`. -/
theorem new_get_count_down_counter_no_mismatch :
    ¬ ∃ x, x < 4294967296 ∧ new_get_count_down_counter (new_get_count_down_counter x) ≠ x := by
  rintro ⟨x, hx, hne⟩
  exact hne (new_get_count_down_counter_twice x hx)

/-- C7, amended: applying the counter transform twice returns the original:
for every 32-bit `x`, `new_get_count_down_counter x` is a 32-bit value and
`new_get_count_down_counter (new_get_count_down_counter x) = x`. -/
theorem new_get_count_down_counter_involutive (x : Nat) (hx : x < 4294967296) :
    new_get_count_down_counter x < 4294967296 ∧
      new_get_count_down_counter (new_get_count_down_counter x) = x := by
  refine ⟨?_, new_get_count_down_counter_twice x hx⟩
  rw [new_get_count_down_counter_eq x hx]
  unfold not32
  omega

theorem new_get_count_down_counter_involutive_witness :
    new_get_count_down_counter 0x12345678 < 4294967296 ∧
      new_get_count_down_counter (new_get_count_down_counter 0x12345678) = 0x12345678 :=
  new_get_count_down_counter_involutive 0x12345678 (by decide)

/-- C8: `get_master_key uid vendor_id` is `(uid * (vendor_id + 1)) mod 2^32`,
also when `vendor_id = 0xFFFFFFFF` and `vendor_id + 1` wraps to 0, where the key
is 0; and `get_master_key 0 0 = 0`. -/
theorem get_master_key_eq_mul_mod (uid vendor_id : Nat) :
    get_master_key uid vendor_id = (uid * (vendor_id + 1)) % 4294967296 ∧
    get_master_key uid 0xFFFFFFFF = 0 ∧
    get_master_key 0 0 = 0 := by
  refine ⟨?_, ?_, by decide⟩
  · unfold get_master_key
    rw [Nat.mul_mod, Nat.mod_mod, ← Nat.mul_mod]
  · simp [get_master_key]

/-- C9: `get_encryption_key master_key count_down_counter` is
`(master_key * (count_down_counter + 1)) mod 2^32`, a 32-bit value for every
pair of arguments. -/
theorem get_encryption_key_eq_mul_mod (master_key count_down_counter : Nat) :
    get_encryption_key master_key count_down_counter =
      (master_key * (count_down_counter + 1)) % 4294967296 ∧
    get_encryption_key master_key count_down_counter < 4294967296 := by
  constructor
  · unfold get_encryption_key
    rw [Nat.mul_mod, Nat.mod_mod, ← Nat.mul_mod]
  · unfold get_encryption_key
    omega

/-- C10, as stated, fails: under the default vendor ID `0xFEDC0123` the distinct
UIDs `0x00000001` and `0x80000001` have the same master key. -/
theorem get_master_key_collision :
    (0x00000001 : Nat) ≠ 0x80000001 ∧
      get_master_key 0x00000001 0xFEDC0123 = get_master_key 0x80000001 0xFEDC0123 := by
  decide

/-- C10, amended: under an even vendor ID `v` (so that `v + 1` is odd) distinct
32-bit UIDs have distinct master keys; under an odd vendor ID the UIDs 0 and
`0x80000000` have the same master key. -/
theorem get_master_key_injective_iff_even (v : Nat) :
    (v % 2 = 0 → ∀ u1 u2, u1 < 4294967296 → u2 < 4294967296 → u1 ≠ u2 →
      get_master_key u1 v ≠ get_master_key u2 v) ∧
    (v % 2 = 1 → get_master_key 0 v = get_master_key 0x80000000 v) := by
  constructor
  · intro hv u1 u2 h1 h2 hne heq
    unfold get_master_key at heq
    have hm : ((v + 1) % 4294967296) % 2 = 1 := by omega
    have h := mul_odd_mod_injective u1 u2 _ hm heq
    rw [Nat.mod_eq_of_lt h1, Nat.mod_eq_of_lt h2] at h
    exact hne h
  · intro hv
    unfold get_master_key
    omega

theorem get_master_key_injective_iff_even_witness :
    get_master_key 0x12345678 0xFEDC0122 ≠ get_master_key 0x92345678 0xFEDC0122 ∧
      get_master_key 0 0xFEDC0123 = get_master_key 0x80000000 0xFEDC0123 :=
  ⟨(get_master_key_injective_iff_even 0xFEDC0122).1 (by decide) 0x12345678 0x92345678
      (by decide) (by decide) (by decide),
    (get_master_key_injective_iff_even 0xFEDC0123).2 (by decide)⟩

/-! ## Bit-level lemmas on the cipher -/

/-- A mask of two adjacent bits. -/
theorem testBit_pair (k j : Nat) :
    ((3 : Nat) <<< k).testBit j = (decide (k ≤ j) && decide (j < k + 2)) := by
  have h : (3 : Nat) = 2 ^ 2 - 1 := by norm_num
  rw [h, Nat.testBit_shiftLeft, Nat.testBit_two_pow_sub_one]
  by_cases hk : k ≤ j
  · simp [hk]; omega
  · simp [hk]

theorem testBit_shl32 (x k j : Nat) :
    (shl32 x k).testBit j = (decide (j < 32) && (decide (k ≤ j) && x.testBit (j - k))) := by
  have e : (4294967296 : Nat) = 2 ^ 32 := by norm_num
  rw [shl32, e, Nat.testBit_mod_two_pow, Nat.testBit_shiftLeft]

theorem mask_22 : (0x00C00000 : Nat) = 3 <<< 22 := by decide
theorem mask_14 : (0x0000C000 : Nat) = 3 <<< 14 := by decide
theorem mask_6 : (0x000000C0 : Nat) = 3 <<< 6 := by decide
theorem mask_18 : (0x000C0000 : Nat) = 3 <<< 18 := by decide
theorem mask_16 : (0x00030000 : Nat) = 3 <<< 16 := by decide
theorem mask_8 : (0x00000300 : Nat) = 3 <<< 8 := by decide
theorem mask_28 : (0x30000000 : Nat) = 3 <<< 28 := by decide
theorem mask_26 : (0x0C000000 : Nat) = 3 <<< 26 := by decide
theorem mask_24 : (0x03000000 : Nat) = 3 <<< 24 := by decide
theorem mask_12 : (0x00003000 : Nat) = 3 <<< 12 := by decide
theorem mask_4 : (0x00000030 : Nat) = 3 <<< 4 := by decide
theorem mask_2 : (0x0000000C : Nat) = 3 <<< 2 := by decide


theorem encode_decode_block_rounds (x : Nat) :
    encode_decode_block x = swap_round_a (swap_round_b (swap_round_a x)) := rfl

theorem xor_swap (a b : Bool) : (a ^^ (b ^^ a)) = b := by
  cases a <;> cases b <;> rfl

theorem swap_round_a_testBit (y j : Nat) :
    (swap_round_a y).testBit j = (y.testBit j ^^
      (if 28 ≤ j ∧ j < 30 then y.testBit (j - 6)
       else if 26 ≤ j ∧ j < 28 then y.testBit (j - 12)
       else if 24 ≤ j ∧ j < 26 then y.testBit (j - 18)
       else if 12 ≤ j ∧ j < 14 then y.testBit (j + 6)
       else if 4 ≤ j ∧ j < 6 then y.testBit (j + 12)
       else if 2 ≤ j ∧ j < 4 then y.testBit (j + 6)
       else false)) := by
  unfold swap_round_a
  simp only [mask_22, mask_14, mask_6, mask_18, mask_16, mask_8]
  simp only [Nat.testBit_xor, Nat.testBit_or, Nat.testBit_and, testBit_shl32,
    Nat.testBit_shiftRight, testBit_pair]
  by_cases hj : j < 32
  · interval_cases j <;> simp
  · have h1 : ¬ (6 + j < 20) := by omega
    have h2 : ¬ (12 + j < 18) := by omega
    have h3 : ¬ (6 + j < 10) := by omega
    have h4 : ¬ (j < 30) := by omega
    have h5 : ¬ (j < 28) := by omega
    have h6 : ¬ (j < 26) := by omega
    have h7 : ¬ (j < 14) := by omega
    have h8 : ¬ (j < 6) := by omega
    have h9 : ¬ (j < 4) := by omega
    simp [hj, h1, h2, h3, h4, h5, h6, h7, h8, h9]

theorem swap_round_b_testBit (y j : Nat) :
    (swap_round_b y).testBit j = (y.testBit j ^^
      (if 22 ≤ j ∧ j < 24 then y.testBit (j + 6)
       else if 14 ≤ j ∧ j < 16 then y.testBit (j + 12)
       else if 6 ≤ j ∧ j < 8 then y.testBit (j + 18)
       else if 18 ≤ j ∧ j < 20 then y.testBit (j - 6)
       else if 16 ≤ j ∧ j < 18 then y.testBit (j - 12)
       else if 8 ≤ j ∧ j < 10 then y.testBit (j - 6)
       else false)) := by
  unfold swap_round_b
  simp only [mask_28, mask_26, mask_24, mask_12, mask_4, mask_2]
  simp only [Nat.testBit_xor, Nat.testBit_or, Nat.testBit_and, testBit_shl32,
    Nat.testBit_shiftRight, testBit_pair]
  by_cases hj : j < 32
  · interval_cases j <;> simp
  · have h1 : ¬ (6 + j < 30) := by omega
    have h2 : ¬ (12 + j < 28) := by omega
    have h3 : ¬ (18 + j < 26) := by omega
    have h4 : ¬ (j < 24) := by omega
    have h5 : ¬ (j < 16) := by omega
    have h6 : ¬ (j < 8) := by omega
    have h7 : ¬ (j < 20) := by omega
    have h8 : ¬ (j < 18) := by omega
    have h9 : ¬ (j < 10) := by omega
    simp [hj, h1, h2, h3, h4, h5, h6, h7, h8, h9]

theorem encode_decode_block_testBit (x j : Nat) :
    (encode_decode_block x).testBit j = x.testBit (group_swap_index j) := by
  rw [encode_decode_block_rounds]
  by_cases hj : j < 32
  · interval_cases j <;>
      (simp only [swap_round_a_testBit, swap_round_b_testBit]
       simp [group_swap_index, xor_swap])
  · have h4 : ¬ (j < 30) := by omega
    have h5 : ¬ (j < 28) := by omega
    have h6 : ¬ (j < 26) := by omega
    have h7 : ¬ (j < 14) := by omega
    have h8 : ¬ (j < 6) := by omega
    have h9 : ¬ (j < 4) := by omega
    have g4 : ¬ (j < 24) := by omega
    have g5 : ¬ (j < 16) := by omega
    have g6 : ¬ (j < 8) := by omega
    have g7 : ¬ (j < 20) := by omega
    have g8 : ¬ (j < 18) := by omega
    have g9 : ¬ (j < 10) := by omega
    simp [swap_round_a_testBit, swap_round_b_testBit, group_swap_index,
      h4, h5, h6, h7, h8, h9, g4, g5, g6, g7, g8, g9]


theorem group_swap_index_ge (j : Nat) (hj : 32 ≤ j) : group_swap_index j = j := by
  unfold group_swap_index
  repeat rw [if_neg (by omega)]

theorem group_swap_index_involutive (j : Nat) : group_swap_index (group_swap_index j) = j := by
  by_cases hj : j < 32
  · interval_cases j <;> rfl
  · rw [group_swap_index_ge j (by omega), group_swap_index_ge j (by omega)]

theorem encode_decode_block_twice (x : Nat) :
    encode_decode_block (encode_decode_block x) = x := by
  apply Nat.eq_of_testBit_eq
  intro j
  rw [encode_decode_block_testBit, encode_decode_block_testBit, group_swap_index_involutive]

theorem encode_decode_block_xor (x y : Nat) :
    encode_decode_block (x ^^^ y) = encode_decode_block x ^^^ encode_decode_block y := by
  apply Nat.eq_of_testBit_eq
  intro j
  simp only [encode_decode_block_testBit, Nat.testBit_xor]

theorem encode_decode_block_lt (x : Nat) (hx : x < 4294967296) :
    encode_decode_block x < 4294967296 := by
  have e : (4294967296 : Nat) = 2 ^ 32 := by norm_num
  rw [e] at hx ⊢
  apply Nat.lt_pow_two_of_testBit
  intro j hj
  rw [encode_decode_block_testBit, group_swap_index_ge j hj]
  exact Nat.testBit_lt_two_pow (lt_of_lt_of_le hx (Nat.pow_le_pow_right (by norm_num) hj))


theorem testBit_three (i : Nat) : (3 : Nat).testBit i = decide (i < 2) := by
  have h : (3 : Nat) = 2 ^ 2 - 1 := by norm_num
  rw [h, Nat.testBit_two_pow_sub_one]

theorem fixed_mask : (0xC0300C03 : Nat) = 3 ||| 3 <<< 10 ||| 3 <<< 20 ||| 3 <<< 30 := by decide

theorem exchange_groups_spec_testBit (x j : Nat) (hj : j < 32) :
    (exchange_groups_spec x).testBit j = x.testBit (group_swap_index j) := by
  unfold exchange_groups_spec
  simp only [fixed_mask, Nat.testBit_or, Nat.testBit_and, Nat.testBit_shiftLeft,
    Nat.testBit_shiftRight, testBit_pair, testBit_three]
  interval_cases j <;> simp [group_swap_index]

theorem exchange_groups_spec_testBit_ge (x j : Nat) (hj : 32 ≤ j) :
    (exchange_groups_spec x).testBit j = false := by
  unfold exchange_groups_spec
  simp only [fixed_mask, Nat.testBit_or, Nat.testBit_and, Nat.testBit_shiftLeft,
    Nat.testBit_shiftRight, testBit_pair, testBit_three]
  have h0 : ¬ (j < 2) := by omega
  have h1 : ¬ (j < 10 + 2) := by omega
  have h2 : ¬ (j < 20 + 2) := by omega
  have h3 : ¬ (j < 30 + 2) := by omega
  have g1 : ¬ (j - 28 < 2) := by omega
  have g2 : ¬ (j - 22 < 2) := by omega
  have g3 : ¬ (j - 26 < 2) := by omega
  have g4 : ¬ (j - 14 < 2) := by omega
  have g5 : ¬ (j - 24 < 2) := by omega
  have g6 : ¬ (j - 6 < 2) := by omega
  have g7 : ¬ (j - 12 < 2) := by omega
  have g8 : ¬ (j - 18 < 2) := by omega
  have g9 : ¬ (j - 4 < 2) := by omega
  have g10 : ¬ (j - 16 < 2) := by omega
  have g11 : ¬ (j - 2 < 2) := by omega
  have g12 : ¬ (j - 8 < 2) := by omega
  simp [h0, h1, h2, h3, g1, g2, g3, g4, g5, g6, g7, g8, g9, g10, g11, g12]
  intro _
  omega

theorem encode_decode_block_eq_spec (x : Nat) (hx : x < 4294967296) :
    encode_decode_block x = exchange_groups_spec x := by
  apply Nat.eq_of_testBit_eq
  intro j
  by_cases hj : j < 32
  · rw [encode_decode_block_testBit, exchange_groups_spec_testBit x j hj]
  · have e : (4294967296 : Nat) = 2 ^ 32 := by norm_num
    have h1 := encode_decode_block_lt x hx
    rw [e] at h1
    rw [exchange_groups_spec_testBit_ge x j (by omega)]
    exact Nat.testBit_lt_two_pow (lt_of_lt_of_le h1 (Nat.pow_le_pow_right (by norm_num) (by omega)))

theorem range32 : List.range 32 = [0, 1, 2, 3, 4, 5, 6, 7, 8, 9, 10, 11, 12, 13, 14, 15, 16, 17,
    18, 19, 20, 21, 22, 23, 24, 25, 26, 27, 28, 29, 30, 31] := by decide

theorem popcount32_encode_decode_block (x : Nat) :
    popcount32 (encode_decode_block x) = popcount32 x := by
  simp only [popcount32, range32, List.map, List.sum_cons, List.sum_nil,
    encode_decode_block_testBit]
  simp only [group_swap_index]
  norm_num
  omega

theorem xor_lt_32 (a b : Nat) (ha : a < 4294967296) (hb : b < 4294967296) :
    a ^^^ b < 4294967296 := by
  have e : (4294967296 : Nat) = 2 ^ 32 := by norm_num
  rw [e] at ha hb ⊢
  exact Nat.xor_lt_two_pow ha hb

theorem xor_xor_cancel (a k : Nat) : a ^^^ k ^^^ k = a := by
  rw [Nat.xor_assoc, Nat.xor_self, Nat.xor_zero]

theorem get_xored_block_encode (v k : Nat) (hv : v < 4294967296) (hk : k < 4294967296) :
    get_xored_block (bswap32 (encode_decode_block v ^^^ k)) k = v := by
  unfold get_xored_block
  rw [bswap32_bswap32 _ (xor_lt_32 _ _ (encode_decode_block_lt v hv) hk), xor_xor_cancel,
    encode_decode_block_twice]

theorem and_FFFF (x : Nat) : x &&& 0x0000FFFF = x % 65536 := by
  have h := Nat.and_pow_two_sub_one_eq_mod x 16
  norm_num at h
  exact h

theorem get_vendor_eq (b1 b2 : Nat) :
    get_vendor b1 b2 = (b1 % 65536) * 65536 + b2 % 65536 := by
  unfold get_vendor
  have e1 : shl32 b1 16 = (b1 % 65536) * 2 ^ 16 := by
    simp only [shl32, Nat.shiftLeft_eq]; omega
  rw [e1, and_FFFF, or_eq_add_of_lt _ _ 16 (by omega)]
  omega

theorem mykey_calc_some (data : St25tbData) (c : MykeyCalc) (h : mykey_calc data = some c) :
    ∃ u b6 v1 v2 cc p b5, get_uid data.uid = some u ∧ data.blocks[6]? = some b6 ∧
      data.blocks[0x18]? = some v1 ∧ data.blocks[0x19]? = some v2 ∧
      data.blocks[0x21]? = some cc ∧ data.blocks[0x23]? = some p ∧
      data.blocks[5]? = some b5 ∧
      c._uid = u ∧
      c._count_down_counter_new = new_get_count_down_counter (bswap32 b6) ∧
      c._vendor_id = get_vendor (get_block v1) (get_block v2) ∧
      c._master_key = get_master_key u (get_vendor (get_block v1) (get_block v2)) ∧
      c._encryption_key = get_encryption_key
        (get_master_key u (get_vendor (get_block v1) (get_block v2)))
        (new_get_count_down_counter (bswap32 b6)) ∧
      c.credit = get_xored_block cc (get_encryption_key
        (get_master_key u (get_vendor (get_block v1) (get_block v2)))
        (new_get_count_down_counter (bswap32 b6))) % 65536 ∧
      c._previous_credit = get_block p % 65536 ∧
      c._is_bound = decide (get_is_bound (get_vendor (get_block v1) (get_block v2)) ≠ 0) ∧
      c.lock_id = ((b5 &&& 0xFF) == 0x7F) := by
  simp only [mykey_calc, mykey_has_lockid, MYKEY_BLOCK_VENDOR_ID_1, MYKEY_BLOCK_VENDOR_ID_2,
    MYKEY_BLOCK_CURRENT_CREDIT, MYKEY_BLOCK_PREVIOUS_CREDIT, Option.bind_eq_bind,
    Option.pure_def, Option.bind_eq_some, Option.some.injEq] at h
  obtain ⟨u, hu, b6, h6, v1, hv1, v2, hv2, cc, hcc, p, hp, l, ⟨b5, h5, hl⟩, rfl⟩ := h
  exact ⟨u, b6, v1, v2, cc, p, b5, hu, h6, hv1, hv2, hcc, hp, h5, rfl, rfl, rfl, rfl, rfl, rfl,
    rfl, rfl, hl.symm⟩

theorem mykey_parse_true (data : St25tbData) (s out : String)
    (h : mykey_parse data s = some (true, out)) :
    ∃ c, mykey_calc data = some c ∧ out = s ++ mykey_print c := by
  unfold mykey_parse at h
  repeat (first | split at h | simp_all)

theorem mykey_parse_isSome_indep (data : St25tbData) (s t : String) :
    (mykey_parse data s).isSome = (mykey_parse data t).isSome := by
  unfold mykey_parse
  repeat (first | rfl | split)

theorem get_is_bound_eq (v : Nat) :
    (get_is_bound v = 1 ↔ v ≠ 0xFEDC0123) ∧ (get_is_bound v = 0 ↔ v = 0xFEDC0123) := by
  unfold get_is_bound MYKEY_DEFAULT_VENDOR_ID
  split <;> simp_all

theorem counter_of_block6 (b6 : Nat) (h : b6 < 4294967296) :
    new_get_count_down_counter (bswap32 b6) = 4294967295 - b6 := by
  rw [new_get_count_down_counter_eq _ (bswap32_lt b6), bswap32_bswap32 b6 h, not32,
    Nat.mod_eq_of_lt h]

theorem encryption_key_neg (u v b6 : Nat) (h : b6 < 4294967296) :
    ((get_encryption_key (get_master_key u v) (4294967295 - b6) : Nat) : Int) =
      (-((u : Int) * ((v : Int) + 1) * (b6 : Int))) % 4294967296 := by
  have hk : get_encryption_key (get_master_key u v) (4294967295 - b6) < 4294967296 := by
    unfold get_encryption_key; omega
  have hm : (get_encryption_key (get_master_key u v) (4294967295 - b6) + u * (v + 1) * b6) %
      4294967296 = 0 := by
    have hmk : get_master_key u v ≡ u * (v + 1) [MOD 4294967296] :=
      (Nat.mod_modEq _ _).trans (Nat.ModEq.mul_left u (Nat.mod_modEq _ _))
    have e : 4294967295 - b6 + 1 = 4294967296 - b6 := by omega
    have h1 : get_encryption_key (get_master_key u v) (4294967295 - b6) ≡
        u * (v + 1) * (4294967296 - b6) [MOD 4294967296] := by
      unfold get_encryption_key
      rw [e]
      exact (Nat.mod_modEq _ _).trans (Nat.ModEq.mul hmk (Nat.mod_modEq _ _))
    have h2 := h1.add_right (u * (v + 1) * b6)
    have h3 : u * (v + 1) * (4294967296 - b6) + u * (v + 1) * b6 = u * (v + 1) * 4294967296 := by
      rw [← Nat.mul_add]
      congr 1
      omega
    rw [h3] at h2
    rw [h2, Nat.mul_mod_left]
  have hm2 : ((get_encryption_key (get_master_key u v) (4294967295 - b6) : Nat) : Int) +
      (u : Int) * ((v : Int) + 1) * (b6 : Int) =
      ((get_encryption_key (get_master_key u v) (4294967295 - b6) + u * (v + 1) * b6 : Nat) :
        Int) := by
    push_cast; ring
  generalize get_encryption_key (get_master_key u v) (4294967295 - b6) = key at *
  generalize hT : (u : Int) * ((v : Int) + 1) * (b6 : Int) = T at *
  generalize hN : u * (v + 1) * b6 = N at *
  omega

theorem getElem?_set_7 (l : List Nat) (v i : Nat) (h : i ≠ 7) : (l.set 7 v)[i]? = l[i]? :=
  List.getElem?_set_ne (Ne.symm h)

theorem mykey_parse_set_block7 (data : St25tbData) (v : Nat) (s : String) :
    mykey_parse { data with blocks := data.blocks.set 7 v } s = mykey_parse data s := by
  simp only [mykey_parse, mykey_calc, mykey_has_lockid, otp_loop, MYKEY_BLOCK_VENDOR_ID_1,
    MYKEY_BLOCK_VENDOR_ID_2, MYKEY_BLOCK_CURRENT_CREDIT, MYKEY_BLOCK_PREVIOUS_CREDIT,
    getElem?_set_7 _ _ 0 (by decide), getElem?_set_7 _ _ 1 (by decide),
    getElem?_set_7 _ _ 2 (by decide), getElem?_set_7 _ _ 3 (by decide),
    getElem?_set_7 _ _ 4 (by decide), getElem?_set_7 _ _ 5 (by decide),
    getElem?_set_7 _ _ 6 (by decide), getElem?_set_7 _ _ 8 (by decide),
    getElem?_set_7 _ _ 0x18 (by decide), getElem?_set_7 _ _ 0x19 (by decide),
    getElem?_set_7 _ _ 0x21 (by decide), getElem?_set_7 _ _ 0x23 (by decide)]

theorem mykey_parse_isSome (data : St25tbData) (s : String) (hu : data.uid.length = 8)
    (hb : 36 ≤ data.blocks.length) : ∃ r, mykey_parse data s = some r := by
  obtain ⟨r, hr⟩ := otp_loop_isSome data (by omega)
  obtain ⟨b8, h8⟩ := getElem?_of_lt_length data.blocks 8 (by omega)
  obtain ⟨c, hc⟩ := mykey_calc_isSome data hu hb
  simp only [mykey_parse, hr, h8, hc]
  repeat (first | exact ⟨_, rfl⟩ | split)

theorem short_card_none (n : Nat) (hn : n < 36) : mykey_parse (short_card n) "" = none := by
  interval_cases n <;> decide

theorem mykey_calc_none_of_short (data : St25tbData) (h : data.blocks.length < 36) :
    mykey_calc data = none := by
  have h35 : data.blocks[0x23]? = none := List.getElem?_eq_none (by omega)
  simp [mykey_calc, MYKEY_BLOCK_PREVIOUS_CREDIT, h35]

/-! ## The block cipher (C11 to C14, C18) -/

/-- C11: the bit-permutation transform is its own inverse: for every word `x`,
32-bit words included, `encode_decode_block (encode_decode_block x) = x`. -/
theorem encode_decode_block_involutive (x : Nat) :
    encode_decode_block (encode_decode_block x) = x :=
  encode_decode_block_twice x

/-- C12, as stated, fails: on block `0x00000001` with key 0 the keyed decode gives
`0x00000040`, and the keyed decode of that is `0x40000000`, not the block. -/
theorem get_xored_block_not_involutive :
    get_xored_block 0x00000001 0 = 0x00000040 ∧
      get_xored_block (get_xored_block 0x00000001 0) 0 = 0x40000000 ∧
      get_xored_block (get_xored_block 0x00000001 0) 0 ≠ 0x00000001 := by
  decide

/-- C12, amended: the keyed block decode is undone by the keyed encode with the
same key, not by itself: for every 32-bit block `b` and every key `k`, permuting
the decoded value, XORing the key and reversing the bytes gives back `b`. -/
theorem get_xored_block_reencode (b k : Nat) (hb : b < 4294967296) :
    bswap32 (encode_decode_block (get_xored_block b k) ^^^ k) = b := by
  unfold get_xored_block
  rw [encode_decode_block_twice, xor_xor_cancel, bswap32_bswap32 b hb]

theorem get_xored_block_reencode_witness :
    bswap32 (encode_decode_block (get_xored_block 0xE2A4D301 0x02D2A0E0) ^^^ 0x02D2A0E0) =
      0xE2A4D301 :=
  get_xored_block_reencode 0xE2A4D301 0x02D2A0E0 (by decide)

/-- C13: keyed decode undoes keyed encode: for every 32-bit value `v` and key `k`,
the block `bswap32 (encode_decode_block v ^ k)` decodes to `v` under `k`; a block
that encodes credit 1234 under `k` decodes with low 16 bits 1234; and with key 0
the block `bswap32 (encode_decode_block v)` decodes to `v` by `get_block`. -/
theorem get_xored_block_roundtrip (v k : Nat) (hv : v < 4294967296) (hk : k < 4294967296) :
    get_xored_block (bswap32 (encode_decode_block v ^^^ k)) k = v ∧
    get_xored_block (bswap32 (encode_decode_block 1234 ^^^ k)) k % 65536 = 1234 ∧
    get_block (bswap32 (encode_decode_block v)) = v := by
  refine ⟨get_xored_block_encode v k hv hk, ?_, ?_⟩
  · rw [get_xored_block_encode 1234 k (by norm_num) hk]
  · unfold get_block
    rw [bswap32_bswap32 _ (encode_decode_block_lt v hv), encode_decode_block_twice]

theorem get_xored_block_roundtrip_witness :
    get_xored_block (bswap32 (encode_decode_block 1000 ^^^ 0x02D2A0E0)) 0x02D2A0E0 = 1000 ∧
    get_xored_block (bswap32 (encode_decode_block 1234 ^^^ 0x02D2A0E0)) 0x02D2A0E0 % 65536 =
      1234 ∧
    get_block (bswap32 (encode_decode_block 1000)) = 1000 :=
  get_xored_block_roundtrip 1000 0x02D2A0E0 (by decide) (by decide)

/-- C14: for every 32-bit `x`, `encode_decode_block x` is the bit permutation of
the specification that exchanges the 2-bit groups 28-29 with 22-23, 26-27 with
14-15, 24-25 with 6-7, 12-13 with 18-19, 4-5 with 16-17 and 2-3 with 8-9 and
keeps the bits under `0xC0300C03`: bit `j` of the result is bit
`group_swap_index j` of `x`; the number of set bits is preserved; `get_block x`
is the permutation of the byte-reversed `x`; and
`get_block 0xC0000000 = 0x03000000`. -/
theorem encode_decode_block_refines_spec (x : Nat) (hx : x < 4294967296) :
    encode_decode_block x = exchange_groups_spec x ∧
    (∀ j, (encode_decode_block x).testBit j = x.testBit (group_swap_index j)) ∧
    encode_decode_block x &&& 0xC0300C03 = x &&& 0xC0300C03 ∧
    popcount32 (encode_decode_block x) = popcount32 x ∧
    get_block x = exchange_groups_spec (bswap32 x) ∧
    get_block 0xC0000000 = 0x03000000 := by
  refine ⟨encode_decode_block_eq_spec x hx, encode_decode_block_testBit x, ?_,
    popcount32_encode_decode_block x, encode_decode_block_eq_spec _ (bswap32_lt x), by decide⟩
  apply Nat.eq_of_testBit_eq
  intro j
  simp only [Nat.testBit_and, encode_decode_block_testBit, fixed_mask, Nat.testBit_or,
    testBit_pair, testBit_three]
  by_cases hj : j < 32
  · interval_cases j <;> simp [group_swap_index]
  · rw [group_swap_index_ge j (by omega)]

theorem encode_decode_block_refines_spec_witness :
    encode_decode_block 0x12345678 = exchange_groups_spec 0x12345678 ∧
    (encode_decode_block 0x12345678).testBit 28 = (0x12345678 : Nat).testBit 22 ∧
    encode_decode_block 0x12345678 &&& 0xC0300C03 = 0x12345678 &&& 0xC0300C03 ∧
    popcount32 (encode_decode_block 0x12345678) = popcount32 0x12345678 ∧
    get_block 0x12345678 = exchange_groups_spec (bswap32 0x12345678) ∧
    get_block 0xC0000000 = 0x03000000 :=
  ⟨(encode_decode_block_refines_spec 0x12345678 (by decide)).1,
    (encode_decode_block_refines_spec 0x12345678 (by decide)).2.1 28,
    (encode_decode_block_refines_spec 0x12345678 (by decide)).2.2⟩

/-- C18: the keyed decode is the unkeyed decode XORed with the permuted key:
`get_xored_block b k = get_block b ^ encode_decode_block k`;
`encode_decode_block` is XOR-linear; and `get_xored_block b 0 = get_block b`. -/
theorem get_xored_block_eq_get_block_xor (b k x y : Nat) :
    get_xored_block b k = get_block b ^^^ encode_decode_block k ∧
    encode_decode_block (x ^^^ y) = encode_decode_block x ^^^ encode_decode_block y ∧
    get_xored_block b 0 = get_block b := by
  refine ⟨?_, encode_decode_block_xor x y, ?_⟩
  · unfold get_xored_block get_block
    rw [encode_decode_block_xor]
  · unfold get_xored_block get_block
    rw [Nat.xor_zero]

/-- Two texts that end in the bound line `yes` and in the bound line `no`, each
followed by a lock line, are different. -/
theorem bound_tail_ne (a b L1 L2 : String) (h1 : L1 = "maybe" ∨ L1 = "none")
    (h2 : L2 = "maybe" ∨ L2 = "none") :
    a ++ "Is Bound: yes\nLock ID: " ++ L1 ++ "\n" ≠ b ++ "Is Bound: no\nLock ID: " ++ L2 ++ "\n" := by
  intro h
  have h3 := congrArg (fun t => t.data.reverse) h
  rcases h1 with rfl | rfl <;> rcases h2 with rfl | rfl <;>
    simp [String.data_append, List.reverse_append] at h3

/-- The last two lines of the printed card. -/
theorem mykey_print_tail (c : MykeyCalc) :
    ∃ a, mykey_print c = a ++ (if c._is_bound then "Is Bound: yes\nLock ID: "
      else "Is Bound: no\nLock ID: ") ++ (if c.lock_id then "maybe" else "none") ++ "\n" := by
  refine ⟨"\x1b#MyKey Card\n" ++
    "UID: " ++ fmt_08lX c._uid ++ "\n" ++
    "Vendor ID: " ++ fmt_08lX c._vendor_id ++ "\n" ++
    "Current Credit: " ++ fmt_d (c.credit / 100) ++ "." ++ fmt_02d (c.credit % 100) ++ " E \n" ++
    "Previus Credit: " ++ fmt_d (c._previous_credit / 100) ++ "." ++
      fmt_02d (c._previous_credit % 100) ++ " E \n", ?_⟩
  unfold mykey_print
  cases c._is_bound <;> simp [String.append_assoc]

theorem mykey_print_tail_cases (c : MykeyCalc) (s : String) :
    ∃ a lock, (lock = "maybe" ∨ lock = "none") ∧
      s ++ mykey_print c = a ++ (if c._is_bound then "Is Bound: yes\nLock ID: "
        else "Is Bound: no\nLock ID: ") ++ lock ++ "\n" := by
  obtain ⟨a, ha⟩ := mykey_print_tail c
  refine ⟨s ++ a, if c.lock_id then "maybe" else "none", ?_, ?_⟩
  · cases c.lock_id <;> simp
  · rw [ha]
    simp only [String.append_assoc]

/-- A bound card is printed with `Is Bound: yes`. -/
theorem mykey_parse_sample_card_bound :
    mykey_parse sample_card_bound "" = some (true, sample_text_bound) := by
  decide

/-! ## Vendor ID, binding, bounds and key (C15 to C17, C19) -/

/-- C15: `get_vendor b1 b2` is the 32-bit value whose high 16 bits are the low 16
bits of `b1` and whose low 16 bits are the low 16 bits of `b2`; the high bits of
`b1` and of `b2` do not affect it; and `get_vendor 0xFEDC 0x0123 = 0xFEDC0123`. -/
theorem get_vendor_halves (b1 b2 : Nat) :
    get_vendor b1 b2 = (b1 % 65536) * 65536 + b2 % 65536 ∧
    get_vendor b1 b2 / 65536 = b1 % 65536 ∧
    get_vendor b1 b2 % 65536 = b2 % 65536 ∧
    get_vendor b1 b2 < 4294967296 ∧
    (∀ h1 h2, get_vendor (b1 + h1 * 65536) (b2 + h2 * 65536) = get_vendor b1 b2) ∧
    get_vendor 0xFEDC 0x0123 = 0xFEDC0123 := by
  refine ⟨get_vendor_eq b1 b2, ?_, ?_, ?_, ?_, by decide⟩
  · rw [get_vendor_eq]; omega
  · rw [get_vendor_eq]; omega
  · rw [get_vendor_eq]; omega
  · intro h1 h2
    rw [get_vendor_eq, get_vendor_eq]; omega

/-- C16: when `mykey_parse` returns true, the card is reported as not bound if
and only if the unkeyed decodes of blocks `0x18` and `0x19` have low 16 bits
`0xFEDC` and `0x0123`, that is if and only if the assembled vendor ID is
`0xFEDC0123`: the local `_is_bound` is false exactly then; the appended text is
the seven printed lines with bound line `Is Bound: no` when the vendor ID is
`0xFEDC0123` and `Is Bound: yes` otherwise; the final text ends in
`Is Bound: no` followed by the lock line exactly when the vendor ID is
`0xFEDC0123`, and in `Is Bound: yes` followed by the lock line exactly when it
is not; and `get_is_bound v` is 1 exactly when `v ≠ 0xFEDC0123` (and 0
otherwise). -/
theorem is_bound_iff_vendor_default (data : St25tbData) (s out : String)
    (h : mykey_parse data s = some (true, out)) :
    ∃ c v1 v2, mykey_calc data = some c ∧ out = s ++ mykey_print c ∧
      data.blocks[0x18]? = some v1 ∧ data.blocks[0x19]? = some v2 ∧
      c._vendor_id = get_vendor (get_block v1) (get_block v2) ∧
      (c._is_bound = false ↔
        get_block v1 % 65536 = 0xFEDC ∧ get_block v2 % 65536 = 0x0123) ∧
      (c._is_bound = false ↔ get_vendor (get_block v1) (get_block v2) = 0xFEDC0123) ∧
      (∀ v, (get_is_bound v = 1 ↔ v ≠ 0xFEDC0123) ∧ (get_is_bound v = 0 ↔ v = 0xFEDC0123)) ∧
      out = s ++ ("\x1b#MyKey Card\n" ++
        "UID: " ++ fmt_08lX c._uid ++ "\n" ++
        "Vendor ID: " ++ fmt_08lX (get_vendor (get_block v1) (get_block v2)) ++ "\n" ++
        "Current Credit: " ++ fmt_d (c.credit / 100) ++ "." ++ fmt_02d (c.credit % 100) ++
          " E \n" ++
        "Previus Credit: " ++ fmt_d (c._previous_credit / 100) ++ "." ++
          fmt_02d (c._previous_credit % 100) ++ " E \n" ++
        "Is Bound: " ++
          (if get_vendor (get_block v1) (get_block v2) = 0xFEDC0123 then "no" else "yes") ++
          "\n" ++
        "Lock ID: " ++ (if c.lock_id then "maybe" else "none") ++ "\n") ∧
      ((∃ pre lock, (lock = "maybe" ∨ lock = "none") ∧
          out = pre ++ "Is Bound: no\nLock ID: " ++ lock ++ "\n") ↔
        get_vendor (get_block v1) (get_block v2) = 0xFEDC0123) ∧
      ((∃ pre lock, (lock = "maybe" ∨ lock = "none") ∧
          out = pre ++ "Is Bound: yes\nLock ID: " ++ lock ++ "\n") ↔
        get_vendor (get_block v1) (get_block v2) ≠ 0xFEDC0123) := by
  obtain ⟨c, hc, hout⟩ := mykey_parse_true data s out h
  obtain ⟨u, b6, v1, v2, cc, p, b5, -, -, hv1, hv2, -, -, -, -, -, hvid, -, -, -, -, hb, -⟩ :=
    mykey_calc_some data c hc
  have hbv : c._is_bound = false ↔ get_vendor (get_block v1) (get_block v2) = 0xFEDC0123 := by
    rw [hb]
    have := (get_is_bound_eq (get_vendor (get_block v1) (get_block v2))).2
    simp only [decide_eq_false_iff_not, ne_eq, not_not]
    exact this
  obtain ⟨a, lock, hlock, htail⟩ := mykey_print_tail_cases c s
  rw [← hout] at htail
  refine ⟨c, v1, v2, hc, hout, hv1, hv2, hvid, ?_, hbv, get_is_bound_eq, ?_, ?_, ?_⟩
  · rw [hbv, get_vendor_eq]
    omega
  · rw [hout, ← hvid]
    by_cases hv : c._vendor_id = 0xFEDC0123
    · have hf : c._is_bound = false := hbv.mpr (hvid ▸ hv)
      simp [mykey_print, hv, hf]
    · have ht : c._is_bound = true := by
        cases hcb : c._is_bound
        · exact absurd (hvid ▸ hbv.mp hcb) hv
        · rfl
      simp [mykey_print, hv, ht]
  · constructor
    · rintro ⟨pre, lock2, hlock2, hpre⟩
      by_contra hv
      have ht : c._is_bound = true := by
        cases hcb : c._is_bound
        · exact absurd (hbv.mp hcb) hv
        · rfl
      rw [ht] at htail
      simp only [if_true] at htail
      exact bound_tail_ne a pre lock lock2 hlock hlock2 (htail.symm.trans hpre)
    · intro hv
      have hf : c._is_bound = false := hbv.mpr hv
      rw [hf] at htail
      exact ⟨a, lock, hlock, by simpa using htail⟩
  · constructor
    · rintro ⟨pre, lock2, hlock2, hpre⟩ hv
      have hf : c._is_bound = false := hbv.mpr hv
      rw [hf] at htail
      simp only [Bool.false_eq_true, if_false] at htail
      exact bound_tail_ne pre a lock2 lock hlock2 hlock (hpre.symm.trans htail)
    · intro hv
      have ht : c._is_bound = true := by
        cases hcb : c._is_bound
        · exact absurd (hbv.mp hcb) hv
        · rfl
      rw [ht] at htail
      exact ⟨a, lock, hlock, by simpa using htail⟩

theorem is_bound_iff_vendor_default_witness :
    ∃ c v1 v2, mykey_calc sample_card = some c ∧ sample_text = "" ++ mykey_print c ∧
      sample_card.blocks[0x18]? = some v1 ∧ sample_card.blocks[0x19]? = some v2 ∧
      c._vendor_id = get_vendor (get_block v1) (get_block v2) ∧
      (c._is_bound = false ↔
        get_block v1 % 65536 = 0xFEDC ∧ get_block v2 % 65536 = 0x0123) ∧
      (c._is_bound = false ↔ get_vendor (get_block v1) (get_block v2) = 0xFEDC0123) ∧
      (∀ v, (get_is_bound v = 1 ↔ v ≠ 0xFEDC0123) ∧ (get_is_bound v = 0 ↔ v = 0xFEDC0123)) ∧
      sample_text = "" ++ ("\x1b#MyKey Card\n" ++
        "UID: " ++ fmt_08lX c._uid ++ "\n" ++
        "Vendor ID: " ++ fmt_08lX (get_vendor (get_block v1) (get_block v2)) ++ "\n" ++
        "Current Credit: " ++ fmt_d (c.credit / 100) ++ "." ++ fmt_02d (c.credit % 100) ++
          " E \n" ++
        "Previus Credit: " ++ fmt_d (c._previous_credit / 100) ++ "." ++
          fmt_02d (c._previous_credit % 100) ++ " E \n" ++
        "Is Bound: " ++
          (if get_vendor (get_block v1) (get_block v2) = 0xFEDC0123 then "no" else "yes") ++
          "\n" ++
        "Lock ID: " ++ (if c.lock_id then "maybe" else "none") ++ "\n") ∧
      ((∃ pre lock, (lock = "maybe" ∨ lock = "none") ∧
          sample_text = pre ++ "Is Bound: no\nLock ID: " ++ lock ++ "\n") ↔
        get_vendor (get_block v1) (get_block v2) = 0xFEDC0123) ∧
      ((∃ pre lock, (lock = "maybe" ∨ lock = "none") ∧
          sample_text = pre ++ "Is Bound: yes\nLock ID: " ++ lock ++ "\n") ↔
        get_vendor (get_block v1) (get_block v2) ≠ 0xFEDC0123) :=
  is_bound_iff_vendor_default sample_card "" sample_text (by decide)

/-- C17: with reads modelled as `Option`-valued lookups, on eight identifier
bytes and at least 36 blocks no read of `mykey_parse` is out of range: the
result is never `none`.  36 is the least such length: with fewer blocks the
read of block `0x23` is out of range, so `mykey_calc` is `none` and
`mykey_parse` never returns true, and for every `n < 36` the sample card cut to
`n` blocks makes `mykey_parse` read out of range. -/
theorem mykey_parse_reads_in_range (data : St25tbData) (s : String) :
    (data.uid.length = 8 → 36 ≤ data.blocks.length → ∃ r, mykey_parse data s = some r) ∧
    (data.blocks.length < 36 →
      mykey_calc data = none ∧ ∀ out, mykey_parse data s ≠ some (true, out)) ∧
    (∀ n, n < 36 → (short_card n).uid.length = 8 ∧ (short_card n).blocks.length = n ∧
      mykey_parse (short_card n) s = none) := by
  refine ⟨mykey_parse_isSome data s, ?_, ?_⟩
  · intro hlt
    refine ⟨mykey_calc_none_of_short data hlt, ?_⟩
    intro out hout
    obtain ⟨c, hc, -⟩ := mykey_parse_true data s out hout
    rw [mykey_calc_none_of_short data hlt] at hc
    cases hc
  · intro n hn
    refine ⟨rfl, ?_, ?_⟩
    · simp only [short_card, List.length_take]
      have : sample_card.blocks.length = 36 := by decide
      omega
    · have h := mykey_parse_isSome_indep (short_card n) s ""
      rw [short_card_none n hn] at h
      simpa using h

theorem mykey_parse_reads_in_range_witness :
    (∃ r, mykey_parse sample_card "" = some r) ∧
    (mykey_calc (short_card 35) = none ∧
      mykey_parse (short_card 35) "" ≠ some (true, sample_text)) ∧
    mykey_parse (short_card 35) "" = none :=
  ⟨(mykey_parse_reads_in_range sample_card "").1 (by decide) (by decide),
    ⟨((mykey_parse_reads_in_range (short_card 35) "").2.1 (by decide)).1,
      ((mykey_parse_reads_in_range (short_card 35) "").2.1 (by decide)).2 sample_text⟩,
    ((mykey_parse_reads_in_range sample_card "").2.2 35 (by decide)).2.2⟩

/-- C19: in `mykey_parse` the counter fed to key derivation,
`new_get_count_down_counter (bswap32 blocks[6])`, is the complement
`0xFFFFFFFF - blocks[6]`; the encryption key is
`(-(uid * (vendor_id + 1) * blocks[6])) mod 2^32`; when `blocks[6] = 0` the key
is 0 and the current credit is the low 16 bits of the unkeyed `get_block`; and
the value of block 7 never influences the result of `mykey_parse`. -/
theorem encryption_key_closed_form (data : St25tbData) (c : MykeyCalc) (b6 : Nat)
    (hc : mykey_calc data = some c) (h6 : data.blocks[6]? = some b6) (hb6 : b6 < 4294967296) :
    new_get_count_down_counter (bswap32 b6) = 4294967295 - b6 ∧
    c._count_down_counter_new = 4294967295 - b6 ∧
    (c._encryption_key : Int) =
      (-((c._uid : Int) * ((c._vendor_id : Int) + 1) * (b6 : Int))) % 4294967296 ∧
    (b6 = 0 → c._encryption_key = 0 ∧
      ∀ cc, data.blocks[0x21]? = some cc → c.credit = get_block cc % 65536) ∧
    ∀ v s, mykey_parse { data with blocks := data.blocks.set 7 v } s = mykey_parse data s := by
  obtain ⟨u, b6', v1, v2, cc, p, b5, -, h6', -, -, hcc, -, -, hu, hcnt, hvid, -, hkey, hcr, -, -,
    -⟩ := mykey_calc_some data c hc
  rw [h6] at h6'
  cases h6'
  have hctr := counter_of_block6 b6 hb6
  rw [hctr] at hcnt hkey hcr
  have hk := encryption_key_neg u (get_vendor (get_block v1) (get_block v2)) b6 hb6
  refine ⟨hctr, hcnt, ?_, ?_, fun v s => mykey_parse_set_block7 data v s⟩
  · rw [hkey, hu, hvid]; exact hk
  · intro h0
    subst h0
    have hz : get_encryption_key (get_master_key u (get_vendor (get_block v1) (get_block v2)))
        (4294967295 - 0) = 0 := by
      unfold get_encryption_key; simp
    refine ⟨by rw [hkey, hz], ?_⟩
    intro cc2 hcc2
    rw [hcc] at hcc2
    cases hcc2
    rw [hcr, hz]
    unfold get_xored_block get_block
    rw [Nat.xor_zero]

theorem encryption_key_closed_form_witness :
    new_get_count_down_counter (bswap32 0) = 4294967295 - 0 ∧
    sample_calc_counter0._count_down_counter_new = 4294967295 - 0 ∧
    (sample_calc_counter0._encryption_key : Int) =
      (-((sample_calc_counter0._uid : Int) * ((sample_calc_counter0._vendor_id : Int) + 1) *
        ((0 : Nat) : Int))) % 4294967296 ∧
    (sample_calc_counter0._encryption_key = 0 ∧
      sample_calc_counter0.credit = get_block 0xE2A4D301 % 65536) ∧
    mykey_parse { sample_card_counter0 with blocks := sample_card_counter0.blocks.set 7 0x1234 }
      "" = mykey_parse sample_card_counter0 "" :=
  ⟨(encryption_key_closed_form sample_card_counter0 sample_calc_counter0 0 (by decide)
      (by decide) (by decide)).1,
    (encryption_key_closed_form sample_card_counter0 sample_calc_counter0 0 (by decide)
      (by decide) (by decide)).2.1,
    (encryption_key_closed_form sample_card_counter0 sample_calc_counter0 0 (by decide)
      (by decide) (by decide)).2.2.1,
    ⟨((encryption_key_closed_form sample_card_counter0 sample_calc_counter0 0 (by decide)
      (by decide) (by decide)).2.2.2.1 rfl).1,
     ((encryption_key_closed_form sample_card_counter0 sample_calc_counter0 0 (by decide)
      (by decide) (by decide)).2.2.2.1 rfl).2 0xE2A4D301 (by decide)⟩,
    (encryption_key_closed_form sample_card_counter0 sample_calc_counter0 0 (by decide)
      (by decide) (by decide)).2.2.2.2 0x1234 ""⟩

end MyKey
